import Mathlib

/-!
Verification development for the `roadform` form library
(`src/roadform/form.py`).  The Python source is shallowly embedded:

* Python runtime values that can appear in submitted data (the spec's
  external interface: string, number, boolean, or absent) are the
  inductive type `Value`; numbers are modelled as rationals.
* Fallible Python code (expressions that can raise, such as `float(x)`
  on a non-numeric string) is embedded in `Except PErr`.
* Python's `re.match` regex engine is treated as an uninterpreted total
  parameter `rm : String → String → Bool` (pattern, string ↦ matched?);
  every theorem quantifies over it.  The guard structure around the
  regex calls is taken from the source.
* Python `dict`s are association lists with dict semantics: assignment
  to an existing key replaces in place, otherwise appends; iteration is
  in insertion order.
-/

/-- Exceptions that the embedded fragment of the source can raise:
`valueError` models Python's `ValueError` (e.g. `float("abc")`),
`typeError` models `TypeError` (e.g. comparing a length against a
non-numeric bound). -/
inductive PErr where
  | valueError
  | typeError
deriving DecidableEq, Repr

/-- A submitted/stored Python value: `None`, a string, a number
(modelled as a rational), or a boolean. -/
inductive Value where
  | none
  | str (s : String)
  | num (q : Rat)
  | bool (b : Bool)
deriving DecidableEq, Repr

/-- Python truthiness (`bool(v)`) on the embedded value domain:
`None`, `""`, `0` and `False` are falsy. -/
def pyTruthy : Value → Bool
  | .none => false
  | .str s => !(s == "")
  | .num q => !(q == 0)
  | .bool b => b

/-- Python `str(q)` for a number.  Integers print without a fractional
part; non-integer rationals are printed as `num/den` (an approximation
of float formatting, which no theorem below depends on). -/
def pyStrRat (q : Rat) : String :=
  if q.den = 1 then toString q.num else toString q.num ++ "/" ++ toString q.den

/-- Python `str(v)` on the embedded value domain
(`str(None) = "None"`, `str(True) = "True"`). -/
def pyStr : Value → String
  | .none => "None"
  | .str s => s
  | .num q => pyStrRat q
  | .bool true => "True"
  | .bool false => "False"

/-- Python `s.strip()` with default whitespace stripping. -/
def pyStrip (s : String) : String :=
  String.mk (((s.data.dropWhile Char.isWhitespace).reverse.dropWhile Char.isWhitespace).reverse)

/-- Fold a digit list into a natural number. -/
def digitsToNat (l : List Char) : Nat :=
  l.foldl (fun n c => n * 10 + (c.toNat - 48)) 0

/-- Split a character list at the first dot, keeping the remainder raw. -/
def splitDot : List Char → List Char × Option (List Char)
  | [] => ([], Option.none)
  | c :: rest =>
    if c = '.' then ([], some rest)
    else
      let p := splitDot rest
      (c :: p.1, p.2)

/-- Parse an unsigned decimal literal (`"12"`, `"12."`, `".5"`,
`"1.25"`) into a rational; `Option.none` on anything else. -/
def parseUnsigned (l : List Char) : Option Rat :=
  let p := splitDot l
  match p.2 with
  | Option.none =>
    if l ≠ [] ∧ l.all Char.isDigit then some ((digitsToNat l : Int) : Rat) else Option.none
  | some frac =>
    if (p.1 ≠ [] ∨ frac ≠ []) ∧ p.1.all Char.isDigit ∧ frac.all Char.isDigit then
      some (((digitsToNat p.1 : Int) : Rat) + ((digitsToNat frac : Int) : Rat) / ((10 : Rat) ^ frac.length))
    else Option.none

/-- Modelled from Python's built-in `float(s)` on a string: strips
whitespace, allows an optional sign, then a decimal literal.
Exponent, `inf`/`nan` and underscore forms are not modelled; no claim
below depends on them. -/
def parseFloat (s : String) : Option Rat :=
  match (pyStrip s).data with
  | [] => Option.none
  | c :: rest =>
    if c = '-' then (parseUnsigned rest).map (fun q => -q)
    else if c = '+' then parseUnsigned rest
    else parseUnsigned (c :: rest)

/-- Python `float(v)` on the embedded value domain, `Option.none`
meaning the call raises (`float(None)` and `float("abc")` raise). -/
def toFloat? : Value → Option Rat
  | .none => Option.none
  | .str s => parseFloat s
  | .num q => some q
  | .bool true => some 1
  | .bool false => some 0

/-- `html.escape` on one character (with `quote=True`, the default used
by the source): `&`, `<`, `>`, `"` and the apostrophe (code 39) become
entities. -/
def escapeChar (c : Char) : List Char :=
  if c = '&' then "&amp;".data
  else if c = '<' then "&lt;".data
  else if c = '>' then "&gt;".data
  else if c = '"' then "&quot;".data
  else if c.toNat = 39 then "&#x27;".data
  else [c]

/-- `html.escape` over a character list. -/
def escapeList : List Char → List Char
  | [] => []
  | c :: rest => escapeChar c ++ escapeList rest

/-- Python `html.escape(s)` (default `quote=True`). -/
def htmlEscape (s : String) : String :=
  String.mk (escapeList s.data)

/-- `d.get(k)` on an association list with dict lookup semantics. -/
def lookupVal (l : List (String × Value)) (k : String) : Option Value :=
  (l.find? (fun p => p.1 == k)).map Prod.snd

/-- `d[k] = v` on an association list with dict assignment semantics:
replace the binding in place if the key is present (association lists
built by this code hold each key at most once, like a `dict`), else
append at the end. -/
def dictSet : List (String × Value) → String → Value → List (String × Value)
  | [], k, v => [(k, v)]
  | p :: rest, k, v => if p.1 == k then (k, v) :: rest else p :: dictSet rest k v

/-- `FieldType` enumeration from the source. -/
inductive FieldType where
  | TEXT | EMAIL | PASSWORD | NUMBER | DATE | DATETIME
  | SELECT | CHECKBOX | RADIO_BTN | TEXTAREA | FILE | HIDDEN
deriving DecidableEq, Repr

/-- The `str` value of each `FieldType` member. -/
def FieldType.value : FieldType → String
  | .TEXT => "text"
  | .EMAIL => "email"
  | .PASSWORD => "password"
  | .NUMBER => "number"
  | .DATE => "date"
  | .DATETIME => "datetime"
  | .SELECT => "select"
  | .CHECKBOX => "checkbox"
  | .RADIO_BTN => "radio"
  | .TEXTAREA => "textarea"
  | .FILE => "file"
  | .HIDDEN => "hidden"

/-- `ValidationRule` enumeration from the source. -/
inductive ValidationRule where
  | REQUIRED | EMAIL | URL | MIN_LENGTH | MAX_LENGTH
  | MIN_VALUE | MAX_VALUE | PATTERN | CUSTOM
deriving DecidableEq, Repr

/-- The `str` value of each `ValidationRule` member. -/
def ValidationRule.value : ValidationRule → String
  | .REQUIRED => "required"
  | .EMAIL => "email"
  | .URL => "url"
  | .MIN_LENGTH => "min_length"
  | .MAX_LENGTH => "max_length"
  | .MIN_VALUE => "min_value"
  | .MAX_VALUE => "max_value"
  | .PATTERN => "pattern"
  | .CUSTOM => "custom"

/-- The parameter slot of a validator triple: `None`, a number, a
string (regex), or a callable predicate (the only callable case the
source dispatches on). -/
inductive Param where
  | none
  | num (q : Rat)
  | str (s : String)
  | pred (f : Value → Bool)

/-- `callable(param)` on the embedded parameter domain. -/
def Param.isCallable : Param → Bool
  | .pred _ => true
  | _ => false

/-- `ValidationError` dataclass from the source. -/
structure ValidationError where
  field : String
  rule : String
  message : String
deriving DecidableEq, Repr

/-- `FieldOption` dataclass from the source. -/
structure FieldOption where
  value : String
  label : String
  selected : Bool := false
  disabled : Bool := false
deriving DecidableEq, Repr

/-- A validator triple `(rule, value, message)` as appended by
`FormField.add_validator`. -/
abbrev RuleTriple := ValidationRule × Param × Option String

/-- `FormField` dataclass from the source (defaults as in the source;
`default: Any = None` becomes `Value.none`). -/
structure FormField where
  name : String
  type : FieldType := .TEXT
  label : String := ""
  placeholder : String := ""
  default : Value := .none
  required : Bool := false
  disabled : Bool := false
  readonly : Bool := false
  options : List FieldOption := []
  validators : List RuleTriple := []
  attributes : List (String × String) := []
  help_text : String := ""

/-- `FormField.add_validator`: appends a triple and returns the field. -/
def FormField.add_validator (f : FormField) (rule : ValidationRule)
    (value : Param := .none) (message : Option String := Option.none) : FormField :=
  { f with validators := f.validators ++ [((rule, value, message) : RuleTriple)] }

/-- `FormData` dataclass from the source. -/
structure FormData where
  fields : List (String × Value)
  valid : Bool := true
  errors : List ValidationError := []
deriving DecidableEq, Repr

/-- `Form` from the source; `fields` is the `Dict[str, FormField]`
keyed by `field.name` (`add_field` always stores under that key), so it
is embedded as a list of `FormField` with dict update semantics. -/
structure Form where
  name : String := "form"
  fields : List FormField := []
  method : String := "POST"
  action : String := ""
  enctype : String := "application/x-www-form-urlencoded"
  attributes : List (String × String) := []

/-- `Form.add_field`: `self.fields[field.name] = field`, i.e. dict
assignment keyed by the field's name (replace in place or append). -/
def Form.add_field (f : Form) (fld : FormField) : Form :=
  { f with
    fields :=
      if f.fields.any (fun g => g.name == fld.name) then
        f.fields.map (fun g => if g.name == fld.name then fld else g)
      else f.fields ++ [fld] }

namespace FieldValidator

/-- `FieldValidator.required`: false iff the value is `None` or a
string that strips to empty. -/
def required (v : Value) : Bool :=
  match v with
  | .none => false
  | .str s => !(pyStrip s == "")
  | _ => true

/-- `FieldValidator.email` (the regex engine `rm` is a parameter; the
pattern string is the source's literal). -/
def email (rm : String → String → Bool) (v : Value) : Bool :=
  if !pyTruthy v then true
  else rm "^[a-zA-Z0-9._%+-]+@[a-zA-Z0-9.-]+\\.[a-zA-Z]\x7b2,\x7d$" (pyStr v)

/-- `FieldValidator.url`. -/
def url (rm : String → String → Bool) (v : Value) : Bool :=
  if !pyTruthy v then true
  else rm "^https?://[^\\s/$.?#].[^\\s]*$" (pyStr v)

/-- `FieldValidator.min_length`: empty values pass; otherwise
`len(str(value)) >= min_len`; a non-numeric bound makes the comparison
raise `TypeError`. -/
def min_length (v : Value) (p : Param) : Except PErr Bool :=
  if !pyTruthy v then .ok true
  else
    match p with
    | .num q => .ok (decide (q ≤ ((pyStr v).length : Rat)))
    | _ => .error .typeError

/-- `FieldValidator.max_length`. -/
def max_length (v : Value) (p : Param) : Except PErr Bool :=
  if !pyTruthy v then .ok true
  else
    match p with
    | .num q => .ok (decide (((pyStr v).length : Rat) ≤ q))
    | _ => .error .typeError

/-- `FieldValidator.min_value`: `None` passes; otherwise `float(value)`
is computed first (raising `ValueError` on a non-coercible value) and
compared against the bound (raising `TypeError` on a non-numeric
bound). -/
def min_value (v : Value) (p : Param) : Except PErr Bool :=
  match v with
  | .none => .ok true
  | _ =>
    match toFloat? v with
    | Option.none => .error .valueError
    | some x =>
      match p with
      | .num b => .ok (decide (b ≤ x))
      | _ => .error .typeError

/-- `FieldValidator.max_value`. -/
def max_value (v : Value) (p : Param) : Except PErr Bool :=
  match v with
  | .none => .ok true
  | _ =>
    match toFloat? v with
    | Option.none => .error .valueError
    | some x =>
      match p with
      | .num b => .ok (decide (x ≤ b))
      | _ => .error .typeError

/-- `FieldValidator.pattern`: empty values pass; otherwise
`re.match(regex, str(value))`, raising `TypeError` on a non-string
regex parameter. -/
def pattern (rm : String → String → Bool) (v : Value) (p : Param) : Except PErr Bool :=
  if !pyTruthy v then .ok true
  else
    match p with
    | .str r => .ok (rm r (pyStr v))
    | _ => .error .typeError

end FieldValidator

/-- Python `field.label or name`. -/
def labelOrName (label name : String) : String :=
  if label == "" then name else label

/-- Python `message or default_msg` (an empty custom message also falls
back to the default, since `""` is falsy). -/
def msgOr (m : Option String) (d : String) : String :=
  match m with
  | some s => if s == "" then d else s
  | Option.none => d

/-- Python `str(param)` as used in the default messages
`"Minimum length is {param}"` etc. -/
def pyStrParam : Param → String
  | .none => "None"
  | .num q => pyStrRat q
  | .str s => s
  | .pred _ => "<function>"

/-- One iteration of the validator loop inside `Form.validate`
(lines 195-227 of the source): dispatch on the rule, compute `valid`
and `default_msg`, and on failure produce the `ValidationError` built
from the custom message or the default.  `.ok Option.none` means the
validator passed; `.error` means the predicate raised. -/
def evalValidator (rm : String → String → Bool) (name label : String)
    (v : Value) (t : RuleTriple) : Except PErr (Option ValidationError) :=
  let base : Except PErr (Bool × String) :=
    match t.1 with
    | .REQUIRED => .ok (FieldValidator.required v, labelOrName label name ++ " is required")
    | .EMAIL => .ok (FieldValidator.email rm v, "Invalid email address")
    | .URL => .ok (FieldValidator.url rm v, "Invalid URL")
    | .MIN_LENGTH =>
      (FieldValidator.min_length v t.2.1).map
        (fun b => (b, "Minimum length is " ++ pyStrParam t.2.1))
    | .MAX_LENGTH =>
      (FieldValidator.max_length v t.2.1).map
        (fun b => (b, "Maximum length is " ++ pyStrParam t.2.1))
    | .MIN_VALUE =>
      (FieldValidator.min_value v t.2.1).map
        (fun b => (b, "Minimum value is " ++ pyStrParam t.2.1))
    | .MAX_VALUE =>
      (FieldValidator.max_value v t.2.1).map
        (fun b => (b, "Maximum value is " ++ pyStrParam t.2.1))
    | .PATTERN =>
      (FieldValidator.pattern rm v t.2.1).map (fun b => (b, "Invalid format"))
    | .CUSTOM =>
      match t.2.1 with
      | .pred f => .ok (f v, labelOrName label name ++ " validation failed")
      | _ => .ok (true, labelOrName label name ++ " validation failed")
  match base with
  | .error e => .error e
  | .ok (valid, dmsg) =>
    if valid then .ok Option.none
    else .ok (some ⟨name, t.1.value, msgOr t.2.2 dmsg⟩)

/-- The `for rule, param, message in field.validators` loop of
`Form.validate`: evaluate each attached validator in attachment order,
collecting the errors; a raised exception propagates. -/
def evalValidators (rm : String → String → Bool) (name label : String)
    (v : Value) : List RuleTriple → Except PErr (List ValidationError)
  | [] => .ok []
  | t :: ts =>
    match evalValidator rm name label v t with
    | .error e => .error e
    | .ok Option.none => evalValidators rm name label v ts
    | .ok (some err) =>
      match evalValidators rm name label v ts with
      | .error e => .error e
      | .ok rest => .ok (err :: rest)

/-- `value = data.get(name, field.default)` — the resolved value of a
field for a submitted-data mapping. -/
def resolveValue (data : List (String × Value)) (fld : FormField) : Value :=
  (lookupVal data fld.name).getD fld.default

/-- The per-field loop of `Form.validate` with its two accumulators
(`errors`, `validated`).  A field that is required and fails
`FieldValidator.required` records a single "required" error and skips
both its validators and the `validated[name] = value` assignment
(the `continue` at line 193 of the source). -/
def validateLoop (rm : String → String → Bool) (data : List (String × Value))
    (errs : List ValidationError) (vals : List (String × Value)) :
    List FormField → Except PErr (List ValidationError × List (String × Value))
  | [] => .ok (errs, vals)
  | fld :: rest =>
    let value := resolveValue data fld
    if fld.required && !FieldValidator.required value then
      validateLoop rm data
        (errs ++ [⟨fld.name, "required", labelOrName fld.label fld.name ++ " is required"⟩])
        vals rest
    else
      match evalValidators rm fld.name fld.label value fld.validators with
      | .error e => .error e
      | .ok newErrs =>
        validateLoop rm data (errs ++ newErrs) (dictSet vals fld.name value) rest

/-- `Form.validate`. -/
def Form.validate (f : Form) (rm : String → String → Bool)
    (data : List (String × Value)) : Except PErr FormData :=
  match validateLoop rm data [] [] f.fields with
  | .error e => .error e
  | .ok (errors, validated) => .ok ⟨validated, errors.isEmpty, errors⟩

/-- The `escaped_value` computed at the top of `Form._render_field`:
`html.escape(str(value)) if value else ""`. -/
def escapedValue (value : Value) : String :=
  if pyTruthy value then htmlEscape (pyStr value) else ""

/-- The attribute string of `Form._render_field`:
`" ".join(f'{k}="{v}"' for k, v in field.attributes.items())`. -/
def attrsString (attributes : List (String × String)) : String :=
  String.intercalate " " (attributes.map (fun kv => kv.1 ++ "=\"" ++ kv.2 ++ "\""))

/-- One `<option>` line emitted by the `select` branch of
`Form._render_field` (lines 264-266 of the source): the option is
marked selected iff `str(opt.value) == str(value)`; the option's own
`selected` flag is never read. -/
def renderOption (value : Value) (opt : FieldOption) : String :=
  let selected := if opt.value == pyStr value then " selected" else ""
  "<option value=\"" ++ opt.value ++ "\"" ++ selected ++ ">" ++ opt.label ++ "</option>"

/-- `Form._render_field`, translated line by line from the source
(lines 245-278).  Only `escaped_value` passes through `html.escape`;
the label, placeholder, option values/labels, help text and free-form
attributes are interpolated verbatim. -/
def Form.render_field (fld : FormField) (value : Value) : String :=
  let escaped_value := escapedValue value
  let attrs := attrsString fld.attributes
  let required := if fld.required then " required" else ""
  let disabled := if fld.disabled then " disabled" else ""
  let readonly := if fld.readonly then " readonly" else ""
  if fld.type = .HIDDEN then
    "<input type=\"hidden\" name=\"" ++ fld.name ++ "\" value=\"" ++ escaped_value ++ "\">"
  else
    let parts : List String := ["<div class=\"form-group\">"]
    let parts :=
      if !(fld.label == "") && !(fld.type == .CHECKBOX) then
        parts ++ ["<label for=\"" ++ fld.name ++ "\">" ++ fld.label ++ "</label>"]
      else parts
    let parts :=
      if fld.type = .TEXTAREA then
        parts ++ ["<textarea name=\"" ++ fld.name ++ "\" id=\"" ++ fld.name ++
          "\" placeholder=\"" ++ fld.placeholder ++ "\"" ++ required ++ disabled ++ readonly ++
          " " ++ attrs ++ ">" ++ escaped_value ++ "</textarea>"]
      else if fld.type = .SELECT then
        (parts ++ ["<select name=\"" ++ fld.name ++ "\" id=\"" ++ fld.name ++ "\"" ++
          required ++ disabled ++ " " ++ attrs ++ ">"]) ++
          fld.options.map (renderOption value) ++ ["</select>"]
      else if fld.type = .CHECKBOX then
        let checked := if pyTruthy value then " checked" else ""
        parts ++ ["<label><input type=\"checkbox\" name=\"" ++ fld.name ++ "\" id=\"" ++
          fld.name ++ "\" value=\"1\"" ++ checked ++ disabled ++ " " ++ attrs ++ "> " ++
          fld.label ++ "</label>"]
      else
        parts ++ ["<input type=\"" ++ fld.type.value ++ "\" name=\"" ++ fld.name ++
          "\" id=\"" ++ fld.name ++ "\" value=\"" ++ escaped_value ++ "\" placeholder=\"" ++
          fld.placeholder ++ "\"" ++ required ++ disabled ++ readonly ++ " " ++ attrs ++ ">"]
    let parts :=
      if !(fld.help_text == "") then
        parts ++ ["<small>" ++ fld.help_text ++ "</small>"]
      else parts
    String.intercalate "\n" (parts ++ ["</div>"])

/-- The display value `Form.render_html` passes to the renderer for a
field: `value = data.get(name, field.default) or ""` — the resolved
value if it is truthy, else the empty string. -/
def displayValue (data : List (String × Value)) (fld : FormField) : Value :=
  let v := resolveValue data fld
  if pyTruthy v then v else .str ""

/-- `Form.render_html`. -/
def Form.render_html (f : Form) (data : List (String × Value)) : String :=
  let parts : List String :=
    ["<form name=\"" ++ f.name ++ "\" method=\"" ++ f.method ++ "\" action=\"" ++
      f.action ++ "\" enctype=\"" ++ f.enctype ++ "\">"]
  let parts := parts ++ f.fields.map (fun fld => Form.render_field fld (displayValue data fld))
  let parts := parts ++ ["<button type=\"submit\">Submit</button>", "</form>"]
  String.intercalate "\n" parts

/-- State-passing embedding of the method call `self.validate(data)`:
the body of `Form.validate` assigns only to local variables (`errors`,
`validated`, `value`, `valid`, `default_msg`) and only reads
`self.fields` and the fields' attributes, so the post-state of `self`
is the pre-state. -/
def Form.validateS (f : Form) (rm : String → String → Bool)
    (data : List (String × Value)) : Form × Except PErr FormData :=
  (f, f.validate rm data)

/-- State-passing embedding of the method call `self.render_html(data)`:
the body assigns only to the local `parts`/`value` and reads `self`,
so the post-state of `self` is the pre-state. -/
def Form.renderS (f : Form) (data : List (String × Value)) : Form × String :=
  (f, f.render_html data)

/-- A trivial regex engine used to instantiate theorems at concrete
inputs; none of the instantiated properties depend on regex
semantics. -/
def rmTriv : String → String → Bool := fun _ _ => true

theorem strAppend_empty (s : String) : s ++ "" = s := by
  cases s with
  | mk l => show String.mk (l ++ []) = String.mk l; rw [List.append_nil]

theorem lookupVal_cons (p : String × Value) (l : List (String × Value)) (k : String) :
    lookupVal (p :: l) k = if p.1 == k then some p.2 else lookupVal l k := by
  by_cases h : (p.1 == k) = true <;> simp [lookupVal, List.find?_cons, h]

theorem lookup_dictSet (l : List (String × Value)) (k : String) (v : Value) (q : String) :
    lookupVal (dictSet l k v) q = if q = k then some v else lookupVal l q := by
  induction l with
  | nil =>
    by_cases h : q = k
    · subst h; simp [dictSet, lookupVal_cons]
    · have h1 : ((k : String) == q) = false := beq_eq_false_iff_ne.mpr (Ne.symm h)
      simp [dictSet, lookupVal_cons, h1, h, lookupVal]
  | cons p rest ih =>
    by_cases hp : (p.1 == k) = true
    · have hp' : p.1 = k := beq_iff_eq.mp hp
      by_cases hq : q = k
      · subst hq
        simp [dictSet, hp, lookupVal_cons]
      · have h1 : ((k : String) == q) = false := beq_eq_false_iff_ne.mpr (Ne.symm hq)
        have h2 : (p.1 == q) = false := beq_eq_false_iff_ne.mpr (hp' ▸ Ne.symm hq)
        simp [dictSet, hp, lookupVal_cons, h1, h2, hq]
    · have hp2 : (p.1 == k) = false := by simpa using hp
      by_cases hq : q = k
      · subst hq
        have h2 : (p.1 == q) = false := hp2
        simp [dictSet, hp2, lookupVal_cons, h2, ih]
      · simp [dictSet, hp2, lookupVal_cons, ih, hq]

/-- `html.escape` output never contains a raw `<`, `>` or `"`:
every source character either maps to an entity (whose characters are
alphanumerics, `&`, `#` and `;`) or is a character distinct from the
escaped five. -/
theorem escapeList_no_specials (l : List Char) :
    (escapeList l).all (fun c => !(c == '<') && !(c == '>') && !(c == '"')) = true := by
  induction l with
  | nil => rfl
  | cons c rest ih =>
    simp only [escapeList, List.all_append, Bool.and_eq_true, ih, and_true]
    unfold escapeChar
    split_ifs with h1 h2 h3 h4 h5
    · rfl
    · rfl
    · rfl
    · rfl
    · rfl
    · simp [List.all_cons, beq_eq_false_iff_ne, h2, h3, h4]

/-- C3 (amended): only the resolved value is HTML-escaped by the
renderer.  The `escaped_value` that `_render_field` interpolates is
`html.escape(str(value))` for truthy values, so the value `<script>`
is rendered as `&lt;script&gt;`, and no raw `<`, `>` or `"` character
ever enters the markup through the value slot.  (The label,
placeholder, help text, option values/labels and free-form attributes
are interpolated verbatim — see the counterexample.) -/
theorem c3_value_escaped :
    escapedValue (Value.str "<script>") = "&lt;script&gt;" ∧
    ∀ v : Value,
      ((escapedValue v).data.all (fun c => !(c == '<') && !(c == '>') && !(c == '"'))) = true := by
  refine ⟨by decide, ?_⟩
  intro v
  unfold escapedValue
  by_cases h : pyTruthy v = true
  · simp only [h, if_true]
    exact escapeList_no_specials (pyStr v).data
  · simp only [h]
    simp

/-- The field used in C3's counterexample: its label is the attack
string `<script>`. -/
def c3Field : FormField := { name := "a", label := "<script>" }

/-- C3 counterexample: rendering a field whose label is `<script>`
produces markup containing the literal substring `<script>` — the
label (like placeholder, help text and option text) is interpolated
without HTML escaping, so the claim that all user-controlled textual
content is escaped is false. -/
theorem c3_counterexample :
    Form.render_field c3Field Value.none =
      "<div class=\"form-group\">\n<label for=\"a\"><script></label>\n<input type=\"text\" name=\"a\" id=\"a\" value=\"\" placeholder=\"\" >\n</div>" ∧
    ∃ s t : String, Form.render_field c3Field Value.none = s ++ "<script>" ++ t := by
  refine ⟨rfl, "<div class=\"form-group\">\n<label for=\"a\">",
    "</label>\n<input type=\"text\" name=\"a\" id=\"a\" value=\"\" placeholder=\"\" >\n</div>", ?_⟩
  rfl

/-- C7: in the select branch of `_render_field`, an option line
carries the `selected` marker iff the option's value string-equals
`str(value)`; a non-matching option carries no marker; and the
`FieldOption.selected` (and `disabled`) flags never influence the
rendered option. -/
theorem c7_selected_marker (v : Value) (opt : FieldOption) :
    (opt.value = pyStr v →
      renderOption v opt =
        "<option value=\"" ++ opt.value ++ "\"" ++ " selected" ++ ">" ++ opt.label ++ "</option>") ∧
    (opt.value ≠ pyStr v →
      renderOption v opt =
        "<option value=\"" ++ opt.value ++ "\"" ++ ">" ++ opt.label ++ "</option>") ∧
    (∀ b d : Bool,
      renderOption v { opt with selected := b, disabled := d } = renderOption v opt) := by
  refine ⟨?_, ?_, ?_⟩
  · intro h
    simp [renderOption, beq_iff_eq, h]
  · intro h
    have hb : (opt.value == pyStr v) = false := beq_eq_false_iff_ne.mpr h
    simp only [renderOption, hb, Bool.false_eq_true, if_false]
    rw [strAppend_empty]
  · intro b d
    rfl

/-- C7 witness: the matching option of the scratch select field is
rendered with the `selected` marker. -/
theorem c7_witness :
    renderOption (Value.str "us") { value := "us", label := "United States" } =
      "<option value=\"us\" selected>United States</option>" :=
  (c7_selected_marker (Value.str "us") { value := "us", label := "United States" }).1 rfl

/-- C8 (amended): the display value `render_html` passes to the
renderer is the resolved value (`data[name]` if present, else the
field default) only when that value is truthy; a falsy resolved value
(`None`, `""`, `0`, `False`) is replaced by the empty string by the
`or ""` at line 238 of the source. -/
theorem c8_display_value (data : List (String × Value)) (fld : FormField) :
    (pyTruthy (resolveValue data fld) = true → displayValue data fld = resolveValue data fld) ∧
    (pyTruthy (resolveValue data fld) = false → displayValue data fld = Value.str "") := by
  constructor <;> intro h <;> simp [displayValue, h]

/-- C8 witness: a truthy submitted value is passed through unchanged. -/
theorem c8_witness :
    displayValue [("a", Value.str "x")] ({ name := "a" } : FormField) =
      resolveValue [("a", Value.str "x")] ({ name := "a" } : FormField) :=
  (c8_display_value [("a", Value.str "x")] { name := "a" }).1 rfl

/-- The field used in C8's counterexample: default `None`, no
submitted value. -/
def c8Field : FormField := { name := "a" }

/-- C8 counterexample: with no submitted value and default `None`, the
resolved value is `None` but the renderer receives `""` (the `or ""`),
so the display value is not `data[name]`-or-default as claimed. -/
theorem c8_counterexample :
    displayValue [] c8Field = Value.str "" ∧
    resolveValue [] c8Field = Value.none ∧
    Value.str "" ≠ Value.none := by
  refine ⟨rfl, rfl, by decide⟩

/-- C9: dispatch of the `custom` rule in `Form.validate`
(line 223-224): a non-callable parameter leaves `valid = True` (no
error for any value); a callable parameter is invoked directly on the
resolved value, and an error with rule `"custom"` is recorded iff it
returns false, with the caller's message or the generic default. -/
theorem c9_custom_dispatch (rm : String → String → Bool) (name label : String)
    (v : Value) (p : Param) (m : Option String) :
    (p.isCallable = false →
      evalValidator rm name label v (ValidationRule.CUSTOM, p, m) = .ok Option.none) ∧
    (∀ f : Value → Bool,
      (f v = true →
        evalValidator rm name label v (ValidationRule.CUSTOM, Param.pred f, m) = .ok Option.none) ∧
      (f v = false →
        evalValidator rm name label v (ValidationRule.CUSTOM, Param.pred f, m) =
          .ok (some ⟨name, "custom", msgOr m (labelOrName label name ++ " validation failed")⟩))) := by
  refine ⟨?_, ?_⟩
  · intro h
    cases p with
    | pred f => simp [Param.isCallable] at h
    | none => rfl
    | num q => rfl
    | str s => rfl
  · intro f
    constructor <;> intro h <;> simp [evalValidator, h, ValidationRule.value]

/-- C9 witness: a non-callable (numeric) custom parameter records no
error. -/
theorem c9_witness :
    evalValidator rmTriv "a" "" Value.none (ValidationRule.CUSTOM, Param.num 0, Option.none) =
      .ok Option.none :=
  (c9_custom_dispatch rmTriv "a" "" Value.none (Param.num 0) Option.none).1 rfl

/-- C10: `validate` and `render_html` never mutate the `Form` (their
bodies assign only to local variables, so their state-passing
embeddings return the receiver unchanged), and a second `validate` on
the post-state with the same data yields a structurally identical
result. -/
theorem c10_no_mutation (rm : String → String → Bool) (f : Form)
    (d : List (String × Value)) :
    (f.validateS rm d).1 = f ∧
    (f.renderS d).1 = f ∧
    (Form.validateS ((f.validateS rm d).1) rm d).2 = (f.validateS rm d).2 ∧
    (Form.renderS ((f.renderS d).1) d).2 = (f.renderS d).2 :=
  ⟨rfl, rfl, rfl, rfl⟩

/-- C4: the required-field short-circuit of `Form.validate`
(lines 191-193): when a field is required and its resolved value fails
`FieldValidator.required`, the loop iteration appends exactly one
error — field name, rule `"required"`, the label-or-name message — and
moves to the next field without recording the value and without
consulting the field's validators (the statement holds for every
validator list `vs` substituted into the field). -/
theorem c4_required_short_circuit (rm : String → String → Bool)
    (data : List (String × Value)) (errs : List ValidationError)
    (vals : List (String × Value)) (fld : FormField) (rest : List FormField)
    (hreq : fld.required = true)
    (hfail : FieldValidator.required (resolveValue data fld) = false) :
    ∀ vs : List RuleTriple,
      validateLoop rm data errs vals ({ fld with validators := vs } :: rest) =
        validateLoop rm data
          (errs ++ [⟨fld.name, "required", labelOrName fld.label fld.name ++ " is required"⟩])
          vals rest := by
  intro vs
  have hcond : ((({ fld with validators := vs } : FormField)).required &&
      !FieldValidator.required (resolveValue data ({ fld with validators := vs } : FormField))) = true := by
    show (fld.required && !FieldValidator.required (resolveValue data fld)) = true
    rw [hreq, hfail]
    rfl
  simp only [validateLoop, hcond, if_true]

/-- C4 witness: a required password field with an attached
`min_length` validator, submitted empty, contributes the single
"required" error and skips the `min_length` validator. -/
theorem c4_witness :
    validateLoop rmTriv [("password", Value.str "")] [] []
        ({ ({ name := "password", required := true } : FormField) with
          validators := [(ValidationRule.MIN_LENGTH, Param.num 8, Option.none)] } :: []) =
      validateLoop rmTriv [("password", Value.str "")]
        [⟨"password", "required", "password is required"⟩] [] [] :=
  c4_required_short_circuit rmTriv [("password", Value.str "")] [] []
    { name := "password", required := true } [] rfl rfl
    [(ValidationRule.MIN_LENGTH, Param.num 8, Option.none)]

/-- "Absent or empty" in the sense of the empty-value-exemption claim:
`None` or the empty string. -/
def isEmptyValue : Value → Bool
  | .none => true
  | .str s => s == ""
  | _ => false

/-- `true` iff the validator-loop iteration recorded a
`ValidationError` (as opposed to passing or raising). -/
def contributesError : Except PErr (Option ValidationError) → Bool
  | .ok (some _) => true
  | _ => false

/-- C6 (amended): every non-required *built-in* validator (email, url,
min_length, max_length, min_value, max_value, pattern) contributes no
`ValidationError` on an absent or empty resolved value: the string
validators return valid on any falsy value, and the numeric bound
validators return valid on `None` (on the empty string they raise a
coercion error rather than record a validation error).  The `custom`
rule carries no such exemption — see the counterexample. -/
theorem c6_empty_value_exemption (rm : String → String → Bool) (name label : String)
    (v : Value) (t : RuleTriple)
    (h1 : t.1 ≠ ValidationRule.REQUIRED) (h2 : t.1 ≠ ValidationRule.CUSTOM)
    (he : isEmptyValue v = true) :
    contributesError (evalValidator rm name label v t) = false := by
  obtain ⟨rule, param, msg⟩ := t
  have hv : v = Value.none ∨ v = Value.str "" := by
    cases v with
    | none => exact Or.inl rfl
    | str s =>
      have hs : s = "" := by simpa [isEmptyValue] using he
      exact Or.inr (by rw [hs])
    | num q => simp [isEmptyValue] at he
    | bool b => simp [isEmptyValue] at he
  have ht : pyTruthy v = false := by rcases hv with h | h <;> subst h <;> rfl
  cases rule with
  | REQUIRED => exact absurd rfl h1
  | CUSTOM => exact absurd rfl h2
  | EMAIL => simp [evalValidator, FieldValidator.email, ht, contributesError]
  | URL => simp [evalValidator, FieldValidator.url, ht, contributesError]
  | MIN_LENGTH => simp [evalValidator, FieldValidator.min_length, ht, Except.map, contributesError]
  | MAX_LENGTH => simp [evalValidator, FieldValidator.max_length, ht, Except.map, contributesError]
  | PATTERN => simp [evalValidator, FieldValidator.pattern, ht, Except.map, contributesError]
  | MIN_VALUE =>
    rcases hv with h | h <;> subst h
    · simp [evalValidator, FieldValidator.min_value, Except.map, contributesError]
    · simp [evalValidator, FieldValidator.min_value, toFloat?, parseFloat, pyStrip,
        Except.map, contributesError]
  | MAX_VALUE =>
    rcases hv with h | h <;> subst h
    · simp [evalValidator, FieldValidator.max_value, Except.map, contributesError]
    · simp [evalValidator, FieldValidator.max_value, toFloat?, parseFloat, pyStrip,
        Except.map, contributesError]

/-- C6 witness: the email validator contributes no error on an absent
value. -/
theorem c6_witness :
    contributesError
        (evalValidator rmTriv "a" "" Value.none
          (ValidationRule.EMAIL, Param.none, Option.none)) = false :=
  c6_empty_value_exemption rmTriv "a" "" Value.none
    (ValidationRule.EMAIL, Param.none, Option.none) (by decide) (by decide) rfl

/-- The form used in C6's counterexample: one non-required field whose
only validator is a `custom` rule with an always-false predicate. -/
def c6Form : Form :=
  { fields :=
      [{ name := "a",
         validators := [(ValidationRule.CUSTOM, Param.pred (fun _ => false), Option.none)] }] }

/-- C6 counterexample: a `custom` validator is evaluated even on an
absent value (there is no empty-value guard in the custom branch), so
a non-required empty field can produce an error — the claim is false
for the `custom` rule it lists. -/
theorem c6_counterexample :
    Form.validate c6Form rmTriv [] =
      .ok ⟨[("a", Value.none)], false, [⟨"a", "custom", "a validation failed"⟩]⟩ ∧
    isEmptyValue Value.none = true :=
  ⟨rfl, rfl⟩

/-- The field names of a form, in declaration order. -/
def formNames (f : Form) : List String := f.fields.map FormField.name

/-- After `add_field`, every previously present field *name* is still
present (dict assignment never removes a key). -/
theorem add_field_name_present (f : Form) (x : FormField) :
    ∀ g ∈ f.fields, ∃ g' ∈ (f.add_field x).fields, g'.name = g.name := by
  intro g hg
  unfold Form.add_field
  by_cases hany : (f.fields.any (fun h => h.name == x.name)) = true
  · simp only [hany, if_true]
    refine ⟨if g.name == x.name then x else g, List.mem_map_of_mem _ hg, ?_⟩
    by_cases hx : (g.name == x.name) = true
    · simp [hx, beq_iff_eq.mp hx]
    · simp [hx]
  · simp only [hany]
    exact ⟨g, by simp [List.mem_append, hg], rfl⟩

/-- `add_field` preserves distinctness of field names: replacement
keeps the name list unchanged, append adds a name shown absent by the
`any` test. -/
theorem add_field_nodup (f : Form) (x : FormField) :
    (formNames f).Nodup → (formNames (f.add_field x)).Nodup := by
  intro hnd
  unfold formNames Form.add_field
  by_cases hany : (f.fields.any (fun h => h.name == x.name)) = true
  · simp only [hany, if_true]
    have : (f.fields.map (fun g => if g.name == x.name then x else g)).map FormField.name =
        f.fields.map FormField.name := by
      rw [List.map_map]
      apply List.map_congr_left
      intro g _
      by_cases hx : (g.name == x.name) = true
      · simp [Function.comp, hx, beq_iff_eq.mp hx]
      · simp [Function.comp, hx]
    rw [this]
    exact hnd
  · simp only [hany, Bool.false_eq_true, if_false, List.map_append, List.map_cons, List.map_nil]
    have hx : x.name ∉ f.fields.map FormField.name := by
      intro hmem
      obtain ⟨g, hg, hgeq⟩ := List.mem_map.mp hmem
      have : (f.fields.any (fun h => h.name == x.name)) = true :=
        List.any_eq_true.mpr ⟨g, hg, beq_iff_eq.mpr hgeq⟩
      exact hany this
    have hnd' : (f.fields.map FormField.name).Nodup := hnd
    simp [List.nodup_append, hnd', hx]

/-- C5 (amended): across any sequence of `add_field` calls, every
field *name* present beforehand remains present afterwards, and field
names stay pairwise distinct.  (The `FormField` objects themselves are
not preserved: adding a field with an existing name replaces that
field's definition — see the counterexample.) -/
theorem c5_names_preserved (fs : List FormField) (f : Form) :
    (∀ g ∈ f.fields, ∃ g' ∈ (fs.foldl Form.add_field f).fields, g'.name = g.name) ∧
    ((formNames f).Nodup → (formNames (fs.foldl Form.add_field f)).Nodup) := by
  induction fs generalizing f with
  | nil => exact ⟨fun g hg => ⟨g, hg, rfl⟩, fun h => h⟩
  | cons x fs ih =>
    constructor
    · intro g hg
      obtain ⟨g1, hg1, he1⟩ := add_field_name_present f x g hg
      obtain ⟨g', hg', he'⟩ := (ih (f.add_field x)).1 g1 hg1
      exact ⟨g', hg', he'.trans he1⟩
    · intro hnd
      exact (ih (f.add_field x)).2 (add_field_nodup f x hnd)

/-- C5 witness: names remain distinct after adding a field to the
empty form. -/
theorem c5_witness :
    (formNames (List.foldl Form.add_field ({} : Form)
      [({ name := "a" } : FormField)])).Nodup :=
  (c5_names_preserved [({ name := "a" } : FormField)] {}).2 (by simp [formNames])

/-- The two fields of C5's counterexample: same name, different
labels. -/
def gxField : FormField := { name := "a", label := "x" }

/-- Second field of C5's counterexample. -/
def gyField : FormField := { name := "a", label := "y" }

/-- C5 counterexample: adding a second field with an already-used name
replaces the first `FormField` — the previously added field object is
no longer present, refuting "every previously added FormField remains
present". -/
theorem c5_counterexample :
    ((({} : Form).add_field gxField).add_field gyField).fields = [gyField] ∧
    gxField ∉ ((({} : Form).add_field gxField).add_field gyField).fields := by
  constructor
  · rfl
  · intro hmem
    have h1 : gxField = gyField := by
      have : ((({} : Form).add_field gxField).add_field gyField).fields = [gyField] := rfl
      rw [this] at hmem
      exact List.mem_singleton.mp hmem
    have h2 : gxField.label = gyField.label := congrArg FormField.label h1
    exact absurd h2 (by decide)

/-- `true` iff the parameter is a number. -/
def paramIsNum : Param → Bool
  | .num _ => true
  | _ => false

/-- `true` iff the parameter is a string. -/
def paramIsStr : Param → Bool
  | .str _ => true
  | _ => false

/-- `true` iff the value is `None`. -/
def isNoneV : Value → Bool
  | .none => true
  | _ => false

/-- Sufficient condition for one validator evaluation not to raise:
numeric bound rules need a numeric bound and a `None` or numerically
coercible value; length rules need a numeric bound (unless the value
is falsy, in which case the guard returns early); `pattern` needs a
string regex likewise; every other rule never raises. -/
def tripleSafe (v : Value) (t : RuleTriple) : Bool :=
  match t.1 with
  | .MIN_VALUE => paramIsNum t.2.1 && (isNoneV v || (toFloat? v).isSome)
  | .MAX_VALUE => paramIsNum t.2.1 && (isNoneV v || (toFloat? v).isSome)
  | .MIN_LENGTH => !pyTruthy v || paramIsNum t.2.1
  | .MAX_LENGTH => !pyTruthy v || paramIsNum t.2.1
  | .PATTERN => !pyTruthy v || paramIsStr t.2.1
  | _ => true

/-- A safe validator evaluation returns `.ok`. -/
theorem evalValidator_ok_of_safe (rm : String → String → Bool) (name label : String)
    (v : Value) (t : RuleTriple) (h : tripleSafe v t = true) :
    ∃ r, evalValidator rm name label v t = .ok r := by
  obtain ⟨rule, param, msg⟩ := t
  cases rule with
  | REQUIRED =>
    simp only [evalValidator]
    split <;> exact ⟨_, rfl⟩
  | EMAIL =>
    simp only [evalValidator]
    split <;> exact ⟨_, rfl⟩
  | URL =>
    simp only [evalValidator]
    split <;> exact ⟨_, rfl⟩
  | CUSTOM =>
    simp only [evalValidator]
    cases param <;> (simp only []; split <;> exact ⟨_, rfl⟩)
  | MIN_LENGTH =>
    simp only [tripleSafe, Bool.or_eq_true] at h
    by_cases ht : pyTruthy v = true
    · have hp : paramIsNum param = true := by
        rcases h with h | h
        · rw [ht] at h; simp at h
        · exact h
      cases param <;> simp [paramIsNum] at hp ⊢
      simp only [evalValidator, FieldValidator.min_length, ht, Bool.not_true, Bool.false_eq_true,
        if_false, Except.map]
      split <;> exact ⟨_, rfl⟩
    · have ht2 : pyTruthy v = false := by simpa using ht
      simp [evalValidator, FieldValidator.min_length, ht2, Except.map]
  | MAX_LENGTH =>
    simp only [tripleSafe, Bool.or_eq_true] at h
    by_cases ht : pyTruthy v = true
    · have hp : paramIsNum param = true := by
        rcases h with h | h
        · rw [ht] at h; simp at h
        · exact h
      cases param <;> simp [paramIsNum] at hp ⊢
      simp only [evalValidator, FieldValidator.max_length, ht, Bool.not_true, Bool.false_eq_true,
        if_false, Except.map]
      split <;> exact ⟨_, rfl⟩
    · have ht2 : pyTruthy v = false := by simpa using ht
      simp [evalValidator, FieldValidator.max_length, ht2, Except.map]
  | PATTERN =>
    simp only [tripleSafe, Bool.or_eq_true] at h
    by_cases ht : pyTruthy v = true
    · have hp : paramIsStr param = true := by
        rcases h with h | h
        · rw [ht] at h; simp at h
        · exact h
      cases param <;> simp [paramIsStr] at hp ⊢
      simp only [evalValidator, FieldValidator.pattern, ht, Bool.not_true, Bool.false_eq_true,
        if_false, Except.map]
      split <;> exact ⟨_, rfl⟩
    · have ht2 : pyTruthy v = false := by simpa using ht
      simp [evalValidator, FieldValidator.pattern, ht2, Except.map]
  | MIN_VALUE =>
    simp only [tripleSafe, Bool.and_eq_true, Bool.or_eq_true] at h
    obtain ⟨hp, hv⟩ := h
    cases param <;> simp [paramIsNum] at hp ⊢
    cases v with
    | none => simp [evalValidator, FieldValidator.min_value, Except.map]
    | str s =>
      obtain ⟨x, hx⟩ : ∃ x, toFloat? (Value.str s) = some x := by
        rcases hv with hv | hv
        · simp [isNoneV] at hv
        · exact Option.isSome_iff_exists.mp hv
      simp only [evalValidator, FieldValidator.min_value, hx, Except.map]
      split <;> exact ⟨_, rfl⟩
    | num q =>
      simp only [evalValidator, FieldValidator.min_value, toFloat?, Except.map]
      split <;> exact ⟨_, rfl⟩
    | bool b =>
      cases b <;>
        (simp only [evalValidator, FieldValidator.min_value, toFloat?, Except.map]
         split <;> exact ⟨_, rfl⟩)
  | MAX_VALUE =>
    simp only [tripleSafe, Bool.and_eq_true, Bool.or_eq_true] at h
    obtain ⟨hp, hv⟩ := h
    cases param <;> simp [paramIsNum] at hp ⊢
    cases v with
    | none => simp [evalValidator, FieldValidator.max_value, Except.map]
    | str s =>
      obtain ⟨x, hx⟩ : ∃ x, toFloat? (Value.str s) = some x := by
        rcases hv with hv | hv
        · simp [isNoneV] at hv
        · exact Option.isSome_iff_exists.mp hv
      simp only [evalValidator, FieldValidator.max_value, hx, Except.map]
      split <;> exact ⟨_, rfl⟩
    | num q =>
      simp only [evalValidator, FieldValidator.max_value, toFloat?, Except.map]
      split <;> exact ⟨_, rfl⟩
    | bool b =>
      cases b <;>
        (simp only [evalValidator, FieldValidator.max_value, toFloat?, Except.map]
         split <;> exact ⟨_, rfl⟩)

/-- If every attached validator is safe for the value, the validator
loop returns `.ok`. -/
theorem evalValidators_ok_of_safe (rm : String → String → Bool) (name label : String)
    (v : Value) (ts : List RuleTriple) (h : ∀ t ∈ ts, tripleSafe v t = true) :
    ∃ es, evalValidators rm name label v ts = .ok es := by
  induction ts with
  | nil => exact ⟨[], rfl⟩
  | cons t ts ih =>
    obtain ⟨r, hr⟩ := evalValidator_ok_of_safe rm name label v t (h t (List.mem_cons_self t ts))
    obtain ⟨es, hes⟩ := ih (fun t' ht' => h t' (List.mem_cons_of_mem t ht'))
    cases r with
    | none => exact ⟨es, by simp [evalValidators, hr, hes]⟩
    | some err => exact ⟨err :: es, by simp [evalValidators, hr, hes]⟩

/-- If every field's validators are safe for its resolved value, the
per-field loop of `validate` returns `.ok`. -/
theorem validateLoop_ok_of_safe (rm : String → String → Bool)
    (data : List (String × Value)) (fields : List FormField)
    (h : ∀ fld ∈ fields, ∀ t ∈ fld.validators, tripleSafe (resolveValue data fld) t = true) :
    ∀ errs vals, ∃ r, validateLoop rm data errs vals fields = .ok r := by
  induction fields with
  | nil => exact fun errs vals => ⟨(errs, vals), rfl⟩
  | cons fld rest ih =>
    intro errs vals
    by_cases hsk : (fld.required && !FieldValidator.required (resolveValue data fld)) = true
    · simp only [validateLoop, hsk, if_true]
      exact ih (fun g hg => h g (List.mem_cons_of_mem fld hg)) _ _
    · obtain ⟨es, hes⟩ := evalValidators_ok_of_safe rm fld.name fld.label
        (resolveValue data fld) fld.validators (h fld (List.mem_cons_self fld rest))
      have hsk2 : (fld.required && !FieldValidator.required (resolveValue data fld)) = false := by
        simpa using hsk
      simp only [validateLoop, hsk2, Bool.false_eq_true, if_false, hes]
      exact ih (fun g hg => h g (List.mem_cons_of_mem fld hg)) _ _

/-- C2 (amended): `validate` returns a `FormData` (no exception
escapes) whenever each field's attached validators are safe for that
field's resolved value: numeric bound rules see a numeric bound and a
`None` or numerically coercible value, length rules a numeric bound,
and pattern rules a string regex.  Without that proviso a coercion
error escapes — see the counterexample, where a `min_value` validator
meets the string `"abc"`. -/
theorem c2_validate_total (rm : String → String → Bool) (f : Form)
    (data : List (String × Value))
    (h : ∀ fld ∈ f.fields, ∀ t ∈ fld.validators, tripleSafe (resolveValue data fld) t = true) :
    ∃ fd, f.validate rm data = .ok fd := by
  obtain ⟨⟨errors, validated⟩, hr⟩ := validateLoop_ok_of_safe rm data f.fields h [] []
  exact ⟨⟨validated, errors.isEmpty, errors⟩, by simp [Form.validate, hr]⟩

/-- The form of C2's witness: a numeric bound validator with a numeric
bound. -/
def c2SafeForm : Form :=
  { fields :=
      [{ name := "n",
         validators := [(ValidationRule.MIN_VALUE, Param.num 0, Option.none)] }] }

/-- C2 witness: the safe form validates a numeric submission without
raising. -/
theorem c2_witness :
    ∃ fd, Form.validate c2SafeForm rmTriv [("n", Value.num 5)] = .ok fd :=
  c2_validate_total rmTriv c2SafeForm [("n", Value.num 5)] (by decide)

/-- The form of C2's counterexample: a `min_value` validator about to
meet a non-numeric string. -/
def c2BadForm : Form :=
  { fields :=
      [{ name := "n",
         validators := [(ValidationRule.MIN_VALUE, Param.num 0, Option.none)] }] }

/-- C2 counterexample: submitting the string `"abc"` against a
`min_value` bound makes `float(value)` raise `ValueError`, which
escapes `validate` — no `FormData` is returned, refuting the claim for
string-valued submissions. -/
theorem c2_counterexample :
    Form.validate c2BadForm rmTriv [("n", Value.str "abc")] = .error PErr.valueError :=
  rfl

/-- The required-short-circuit condition of a field for given data
(the `if` guard at line 191 of the source). -/
def skipB (data : List (String × Value)) (fld : FormField) : Bool :=
  fld.required && !FieldValidator.required (resolveValue data fld)

/-- The effect of one loop iteration of `validate` on the `validated`
accumulator: skipped fields record nothing, all others record the
resolved value under the field's name. -/
def stepV (data : List (String × Value)) (vals : List (String × Value))
    (fld : FormField) : List (String × Value) :=
  if skipB data fld then vals else dictSet vals fld.name (resolveValue data fld)

/-- When `validateLoop` succeeds, its `validated` accumulator is the
pure fold of `stepV` over the fields. -/
theorem validateLoop_vals (rm : String → String → Bool) (data : List (String × Value)) :
    ∀ (fields : List FormField) (errs : List ValidationError)
      (vals : List (String × Value)) (r : List ValidationError × List (String × Value)),
      validateLoop rm data errs vals fields = .ok r →
      r.2 = fields.foldl (stepV data) vals := by
  intro fields
  induction fields with
  | nil =>
    intro errs vals r h
    simp only [validateLoop] at h
    cases h
    rfl
  | cons fld rest ih =>
    intro errs vals r h
    cases hskb : skipB data fld with
    | true =>
      have hsk' : (fld.required && !FieldValidator.required (resolveValue data fld)) = true := hskb
      simp only [validateLoop, hsk', if_true] at h
      have hrest := ih _ _ _ h
      simp only [List.foldl_cons, stepV, hskb, if_true]
      exact hrest
    | false =>
      have hsk' : (fld.required && !FieldValidator.required (resolveValue data fld)) = false := hskb
      simp only [validateLoop, hsk', Bool.false_eq_true, if_false] at h
      cases hev : evalValidators rm fld.name fld.label (resolveValue data fld) fld.validators with
      | error e => rw [hev] at h; cases h
      | ok newErrs =>
        rw [hev] at h
        have hrest := ih _ _ _ h
        simp only [List.foldl_cons, stepV, hskb, Bool.false_eq_true, if_false]
        exact hrest

/-- A fold of `stepV` over fields whose names all differ from `k`
leaves the binding of `k` unchanged. -/
theorem lookup_foldl_stepV_ne (data : List (String × Value)) :
    ∀ (fields : List FormField) (vals : List (String × Value)) (k : String),
      (∀ fld ∈ fields, fld.name ≠ k) →
      lookupVal (fields.foldl (stepV data) vals) k = lookupVal vals k := by
  intro fields
  induction fields with
  | nil => intro vals k _; rfl
  | cons fld rest ih =>
    intro vals k hne
    rw [List.foldl_cons]
    rw [ih _ _ (fun g hg => hne g (List.mem_cons_of_mem fld hg))]
    unfold stepV
    by_cases hsk : skipB data fld = true
    · simp [hsk]
    · have hsk' : skipB data fld = false := by simpa using hsk
      simp only [hsk', Bool.false_eq_true, if_false]
      rw [lookup_dictSet]
      simp [Ne.symm (hne fld (List.mem_cons_self fld rest))]

/-- Main invariant behind C1: folding `stepV` from an accumulator that
binds none of the (pairwise distinct) field names gives a mapping that
omits exactly the short-circuited fields and binds every other field
to its resolved value. -/
theorem lookup_foldl_stepV (data : List (String × Value)) :
    ∀ (fields : List FormField) (vals : List (String × Value)),
      (fields.map FormField.name).Nodup →
      (∀ fld ∈ fields, lookupVal vals fld.name = Option.none) →
      ∀ fld ∈ fields,
        lookupVal (fields.foldl (stepV data) vals) fld.name =
          if skipB data fld then Option.none else some (resolveValue data fld) := by
  intro fields
  induction fields with
  | nil => intro vals _ _ fld hf; cases hf
  | cons g rest ih =>
    intro vals hnd hdis fld hf
    have hnd' : (rest.map FormField.name).Nodup := (List.nodup_cons.mp hnd).2
    have hgni : g.name ∉ rest.map FormField.name := (List.nodup_cons.mp hnd).1
    rw [List.foldl_cons]
    rcases List.mem_cons.mp hf with hfg | hfr
    · subst hfg
      have hrest_ne : ∀ h ∈ rest, h.name ≠ fld.name := by
        intro h hh heq
        exact hgni (heq ▸ List.mem_map_of_mem FormField.name hh)
      rw [lookup_foldl_stepV_ne data rest _ fld.name hrest_ne]
      unfold stepV
      by_cases hsk : skipB data fld = true
      · simp only [hsk, if_true]
        exact hdis fld (List.mem_cons_self fld rest)
      · have hsk' : skipB data fld = false := by simpa using hsk
        simp only [hsk', Bool.false_eq_true, if_false]
        rw [lookup_dictSet]
        simp
    · have hdis' : ∀ h ∈ rest, lookupVal (stepV data vals g) h.name = Option.none := by
        intro h hh
        have hne : h.name ≠ g.name := by
          intro heq
          exact hgni (heq ▸ List.mem_map_of_mem FormField.name hh)
        unfold stepV
        by_cases hsk : skipB data g = true
        · simp only [hsk, if_true]
          exact hdis h (List.mem_cons_of_mem g hh)
        · have hsk' : skipB data g = false := by simpa using hsk
          simp only [hsk', Bool.false_eq_true, if_false]
          rw [lookup_dictSet]
          simp [hne, hdis h (List.mem_cons_of_mem g hh)]
      exact ih (stepV data vals g) hnd' hdis' fld hfr

/-- C1 (amended): when `validate` returns a `FormData` and the form's
field names are distinct (the Form invariant), the result maps every
field to its resolved value (submitted value, or default if absent) —
*except* the required fields whose value failed `required`: their
`continue` skips the `validated[name] = value` assignment, so they are
absent from the mapping even though an error was recorded for them
(see the counterexample). -/
theorem c1_resolved_mapping (rm : String → String → Bool) (f : Form)
    (data : List (String × Value)) (fd : FormData)
    (hok : f.validate rm data = .ok fd)
    (hnd : (f.fields.map FormField.name).Nodup) :
    ∀ fld ∈ f.fields,
      lookupVal fd.fields fld.name =
        if skipB data fld then Option.none else some (resolveValue data fld) := by
  intro fld hf
  unfold Form.validate at hok
  cases hloop : validateLoop rm data [] [] f.fields with
  | error e => rw [hloop] at hok; cases hok
  | ok r =>
    rw [hloop] at hok
    obtain ⟨errors, validated⟩ := r
    cases hok
    have hvals := validateLoop_vals rm data f.fields [] [] (errors, validated) hloop
    simp only at hvals
    rw [show (⟨validated, errors.isEmpty, errors⟩ : FormData).fields = validated from rfl, hvals]
    exact lookup_foldl_stepV data f.fields [] hnd (fun _ _ => rfl) fld hf

/-- C1 witness: in a two-field form where "a" is required-and-missing
and "b" is submitted, the result maps "b" to its submitted value. -/
theorem c1_witness :
    lookupVal (([("b", Value.str "v")] : List (String × Value))) "b" =
      some (Value.str "v") :=
  c1_resolved_mapping rmTriv
    { fields := [{ name := "a", required := true }, { name := "b", default := Value.str "d" }] }
    [("b", Value.str "v")]
    ⟨[("b", Value.str "v")], false, [⟨"a", "required", "a is required"⟩]⟩
    rfl (by decide)
    { name := "b", default := Value.str "d" }
    (List.Mem.tail _ (List.Mem.head _))

/-- The form of C1's counterexample: a single required field with no
submitted value. -/
def c1Form : Form := { fields := [{ name := "a", required := true }] }

/-- C1 counterexample: the required field "a" gets a "required" error,
but the returned mapping is empty — it does *not* map "a" to its
resolved value, refuting "maps every field name ... including fields
for which validation errors were recorded". -/
theorem c1_counterexample :
    Form.validate c1Form rmTriv [] =
      .ok ⟨[], false, [⟨"a", "required", "a is required"⟩]⟩ ∧
    lookupVal ([] : List (String × Value)) "a" = Option.none :=
  ⟨rfl, rfl⟩
